import Mathlib

/-!
Shallow embedding of `src/TrendLens.ML/ml_service.py` (TrendLens forecast
service): a Flask app wrapping a `SalesForecastModel` (StandardScaler +
LinearRegression over three calendar features) plus a customer-lifetime-value
heuristic.  Python floats are modelled as exact rationals (`ℚ`); exceptions
as explicit error values; the in-place mutation of the global model object
and of the two artifact files as explicit state passing.
-/

namespace TrendLens

/-- Calendar date (proleptic Gregorian), the value carried by a pandas
`datetime64` entry as far as this service reads it. -/
structure Date where
  year : Nat
  month : Nat
  day : Nat
deriving DecidableEq, Repr

/-- Gregorian leap-year rule, as used by pandas date arithmetic. -/
def isLeapYear (y : Nat) : Bool :=
  (y % 4 == 0 && y % 100 != 0) || y % 400 == 0

/-- Days in a month of a given year (Gregorian calendar). -/
def daysInMonth (y m : Nat) : Nat :=
  if m == 2 then (if isLeapYear y then 29 else 28)
  else if m == 4 || m == 6 || m == 9 || m == 11 then 30
  else 31

/-- pandas `Series.dt.dayofyear`: 1-based ordinal day within the year. -/
def dayOfYear (d : Date) : Nat :=
  (List.range (d.month - 1)).foldl (fun acc i => acc + daysInMonth d.year (i + 1)) 0 + d.day

/-- Number of days strictly before January 1 of year `y`
(proleptic Gregorian, year 1 = first year). -/
def daysBeforeYear (y : Nat) : Nat :=
  365 * (y - 1) + (y - 1) / 4 + (y - 1) / 400 - (y - 1) / 100

/-- pandas `Series.dt.dayofweek`: Monday = 0 … Sunday = 6.
January 1 of year 1 is a Monday in the proleptic Gregorian calendar. -/
def dayOfWeek (d : Date) : Nat :=
  (daysBeforeYear d.year + dayOfYear d - 1) % 7

/-- Split a character list at every `'-'` (the behavior of
`String.splitOn "-"` on the string's characters). -/
def splitDash : List Char → List (List Char)
  | [] => [[]]
  | c :: cs =>
    let rest := splitDash cs
    if c = '-' then [] :: rest
    else
      match rest with
      | [] => [[c]]
      | seg :: segs => (c :: seg) :: segs

/-- Decimal value of a nonempty all-digit character list
(the behavior of `String.toNat?`), `none` otherwise. -/
def digitsToNat (cs : List Char) : Option Nat :=
  if cs ≠ [] ∧ cs.all Char.isDigit then
    some (cs.foldl (fun n c => 10 * n + (c.toNat - 48)) 0)
  else none

/-- `pd.to_datetime` on a single string, restricted to the ISO
`YYYY-MM-DD` layout the service's clients use; a string that does not
parse as a real calendar date raises, modelled as `none`. -/
def parseDate (s : String) : Option Date :=
  match splitDash s.data with
  | [ys, ms, dstr] =>
    match digitsToNat ys, digitsToNat ms, digitsToNat dstr with
    | some y, some m, some d =>
      if 1 ≤ y && 1 ≤ m && m ≤ 12 && 1 ≤ d && d ≤ daysInMonth y m then
        some ⟨y, m, d⟩
      else none
    | _, _, _ => none
  | _ => none

/-- Decidable equality of `Except` results (both payload types here carry
derived decidable equality). -/
instance {ε α : Type} [DecidableEq ε] [DecidableEq α] : DecidableEq (Except ε α) := fun x y =>
  match x, y with
  | Except.ok a, Except.ok b =>
    if h : a = b then isTrue (by rw [h]) else isFalse (fun hh => h (Except.ok.inj hh))
  | Except.error a, Except.error b =>
    if h : a = b then isTrue (by rw [h]) else isFalse (fun hh => h (Except.error.inj hh))
  | Except.ok _, Except.error _ => isFalse (fun hh => Except.noConfusion hh)
  | Except.error _, Except.ok _ => isFalse (fun hh => Except.noConfusion hh)

/-- A pandas column: either a datetime column or a numeric column. -/
inductive Col where
  | dateCol (ds : List Date)
  | ratCol (qs : List ℚ)
deriving DecidableEq, Repr

/-- A pandas DataFrame, modelled as an ordered association list of named
columns (column order is observable in pandas and preserved here). -/
structure Frame where
  cols : List (String × Col)
deriving DecidableEq, Repr

/-- `df[name]`: look up a column by name (`KeyError`, i.e. `none`, if absent). -/
def Frame.getCol (f : Frame) (name : String) : Option Col :=
  (f.cols.find? (fun p => p.1 == name)).map (fun p => p.2)

/-- `df[name] = col`: pandas column assignment — replace the column in place
if the name exists, otherwise append it at the end. -/
def Frame.setCol (f : Frame) (name : String) (c : Col) : Frame :=
  if f.cols.any (fun p => p.1 == name) then
    ⟨f.cols.map (fun p => if p.1 == name then (name, c) else p)⟩
  else ⟨f.cols ++ [(name, c)]⟩

/-- One feature row: the 3-tuple the model derives from a date, in the
column order `['day_of_year', 'month', 'day_of_week']`. -/
structure Feat where
  day_of_year : ℚ
  month : ℚ
  day_of_week : ℚ
deriving DecidableEq, Repr

/-- The feature 3-tuple of one date. -/
def featuresOf (d : Date) : Feat :=
  ⟨(dayOfYear d : ℚ), (d.month : ℚ), (dayOfWeek d : ℚ)⟩

/-- `SalesForecastModel.prepare_features(data)`:
```
data['day_of_year'] = data['Date'].dt.dayofyear
data['month'] = data['Date'].dt.month
data['day_of_week'] = data['Date'].dt.dayofweek
return data[['day_of_year', 'month', 'day_of_week']]
```
The three assignments mutate the caller's frame; Python's in-place update is
modelled by returning the updated frame alongside the selected feature rows
(the selection read back row-wise is exactly `ds.map featuresOf`).  A frame
without a datetime `'Date'` column raises (`none`). -/
def prepare_features (data : Frame) : Option (Frame × List Feat) :=
  match data.getCol "Date" with
  | some (Col.dateCol ds) =>
    let d1 := data.setCol "day_of_year" (Col.ratCol (ds.map (fun d => (dayOfYear d : ℚ))))
    let d2 := d1.setCol "month" (Col.ratCol (ds.map (fun d => (d.month : ℚ))))
    let d3 := d2.setCol "day_of_week" (Col.ratCol (ds.map (fun d => (dayOfWeek d : ℚ))))
    some (d3, ds.map featuresOf)
  | _ => none

/-- Largest `k ≤ bound` with `k * k ≤ n` (downward search; structurally
recursive so that it evaluates inside the kernel). -/
def sqrtSearch : Nat → Nat → Nat
  | 0, _ => 0
  | k + 1, n => if (k + 1) * (k + 1) ≤ n then k + 1 else sqrtSearch k n

/-- Integer (floor) square root. -/
def natSqrt (n : Nat) : Nat := sqrtSearch n n

/-- Nonnegative-rational square root, standing in for numpy's real square
root inside `StandardScaler` (`scale_ = sqrt(var_)`).  It is exact whenever
numerator and denominator are perfect squares — in particular `0 ↦ 0` and it
is positive on positive inputs, the only properties the verified claims
depend on (no claim constrains the numeric value of the scale). -/
def ratSqrt (q : ℚ) : ℚ :=
  (natSqrt q.num.toNat : ℚ) / (natSqrt q.den : ℚ)

/-- sklearn `_handle_zeros_in_scale`: a per-feature scale of 0 (constant
feature) is replaced by 1 so that scaling is a no-op on that feature. -/
def handleZeroInScale (v : ℚ) : ℚ :=
  if v = 0 then 1 else v

/-- A fitted `StandardScaler`: per-feature mean and scale, in feature order. -/
structure FittedScaler where
  mean_ : Feat
  scale_ : Feat
deriving DecidableEq, Repr

/-- Mean of a list of rationals (population mean; 0 on the empty list,
which sklearn never reaches because fitting an empty matrix raises first). -/
def qmean (l : List ℚ) : ℚ :=
  l.sum / (l.length : ℚ)

/-- Population variance of a list of rationals, as sklearn computes `var_`. -/
def qvar (l : List ℚ) : ℚ :=
  qmean (l.map (fun x => (x - qmean l) ^ 2))

/-- `StandardScaler.fit`:  `mean_` is the per-column mean, `var_` the
per-column population variance, `scale_ = handle_zeros(sqrt(var_))`. -/
def fitScaler (X : List Feat) : FittedScaler :=
  let m : Feat := ⟨qmean (X.map (fun r => r.day_of_year)),
                   qmean (X.map (fun r => r.month)),
                   qmean (X.map (fun r => r.day_of_week))⟩
  let v : Feat := ⟨qvar (X.map (fun r => r.day_of_year)),
                   qvar (X.map (fun r => r.month)),
                   qvar (X.map (fun r => r.day_of_week))⟩
  ⟨m, ⟨handleZeroInScale (ratSqrt v.day_of_year),
       handleZeroInScale (ratSqrt v.month),
       handleZeroInScale (ratSqrt v.day_of_week)⟩⟩

/-- `StandardScaler.transform` on one row: `(x - mean_) / scale_`. -/
def transformRow (sc : FittedScaler) (x : Feat) : Feat :=
  ⟨(x.day_of_year - sc.mean_.day_of_year) / sc.scale_.day_of_year,
   (x.month - sc.mean_.month) / sc.scale_.month,
   (x.day_of_week - sc.mean_.day_of_week) / sc.scale_.day_of_week⟩

/-- A 3-vector of regression coefficients, in feature order. -/
structure Vec3 where
  c1 : ℚ
  c2 : ℚ
  c3 : ℚ
deriving DecidableEq, Repr

/-- A fitted `LinearRegression`: coefficients and intercept. -/
structure FittedLinReg where
  coef_ : Vec3
  intercept_ : ℚ
deriving DecidableEq, Repr

/-- Determinant of the 3×3 matrix with rows `r1, r2, r3`. -/
def det3 (r1 r2 r3 : Vec3) : ℚ :=
  r1.c1 * (r2.c2 * r3.c3 - r2.c3 * r3.c2)
    - r1.c2 * (r2.c1 * r3.c3 - r2.c3 * r3.c1)
    + r1.c3 * (r2.c1 * r3.c2 - r2.c2 * r3.c1)

/-- `LinearRegression.fit(X, y)` with the default `fit_intercept=True`:
center `X` and `y`, solve the least-squares system on the centered data,
set `intercept_ = ȳ - coef_·x̄`.  The normal equations `(Xcᵀ Xc) w = Xcᵀ yc`
are solved by Cramer's rule when the Gram matrix is invertible; in the
rank-deficient case numpy's `lstsq` returns the (finite) minimum-norm
solution, modelled here by the zero coefficient vector — also finite, which
is all the verified claims constrain in that case. -/
def fitLinReg (X : List Feat) (y : List ℚ) : FittedLinReg :=
  let xbar : Feat := ⟨qmean (X.map (fun r => r.day_of_year)),
                      qmean (X.map (fun r => r.month)),
                      qmean (X.map (fun r => r.day_of_week))⟩
  let ybar : ℚ := qmean y
  let Xc : List Feat := X.map (fun r =>
    ⟨r.day_of_year - xbar.day_of_year, r.month - xbar.month,
     r.day_of_week - xbar.day_of_week⟩)
  let yc : List ℚ := y.map (fun v => v - ybar)
  let a11 := (Xc.map (fun r => r.day_of_year * r.day_of_year)).sum
  let a12 := (Xc.map (fun r => r.day_of_year * r.month)).sum
  let a13 := (Xc.map (fun r => r.day_of_year * r.day_of_week)).sum
  let a22 := (Xc.map (fun r => r.month * r.month)).sum
  let a23 := (Xc.map (fun r => r.month * r.day_of_week)).sum
  let a33 := (Xc.map (fun r => r.day_of_week * r.day_of_week)).sum
  let b1 := ((Xc.zip yc).map (fun p => p.1.day_of_year * p.2)).sum
  let b2 := ((Xc.zip yc).map (fun p => p.1.month * p.2)).sum
  let b3 := ((Xc.zip yc).map (fun p => p.1.day_of_week * p.2)).sum
  let r1 : Vec3 := ⟨a11, a12, a13⟩
  let r2 : Vec3 := ⟨a12, a22, a23⟩
  let r3 : Vec3 := ⟨a13, a23, a33⟩
  let d := det3 r1 r2 r3
  let coef : Vec3 :=
    if d = 0 then ⟨0, 0, 0⟩
    else ⟨det3 ⟨b1, a12, a13⟩ ⟨b2, a22, a23⟩ ⟨b3, a23, a33⟩ / d,
          det3 ⟨a11, b1, a13⟩ ⟨a12, b2, a23⟩ ⟨a13, b3, a33⟩ / d,
          det3 ⟨a11, a12, b1⟩ ⟨a12, a22, b2⟩ ⟨a13, a23, b3⟩ / d⟩
  ⟨coef, ybar - (coef.c1 * xbar.day_of_year + coef.c2 * xbar.month
                  + coef.c3 * xbar.day_of_week)⟩

/-- `LinearRegression.predict` on one (already scaled) row. -/
def predictRow (lr : FittedLinReg) (x : Feat) : ℚ :=
  lr.coef_.c1 * x.day_of_year + lr.coef_.c2 * x.month
    + lr.coef_.c3 * x.day_of_week + lr.intercept_

/-- Exceptions the service can raise, collapsed by the HTTP layer into one
generic error payload. -/
inductive MLError where
  | parseError (s : String)
  | keyError (k : String)
  | notFitted
  | fileNotFound (f : String)
deriving DecidableEq, Repr

/-- `pd.to_datetime` on a list of strings: every element must parse, the
first malformed one raises. -/
def parseDates : List String → Except MLError (List Date)
  | [] => Except.ok []
  | s :: rest =>
    match parseDate s with
    | none => Except.error (MLError.parseError s)
    | some d => (parseDates rest).map (fun ds => d :: ds)

/-- The in-memory `SalesForecastModel` object: `LinearRegression()` and
`StandardScaler()` hold no fitted parameters until `fit` is called
(`none` = unfitted; sklearn raises `NotFittedError` on use). -/
structure SalesForecastModel where
  model : Option FittedLinReg
  scaler : Option FittedScaler
  is_trained : Bool
deriving DecidableEq, Repr

/-- `SalesForecastModel.__init__`: fresh regressor, fresh scaler, untrained. -/
def SalesForecastModel.init : SalesForecastModel :=
  ⟨none, none, false⟩

/-- The two artifact files in the working directory: `'sales_model.pkl'`
and `'scaler.pkl'` (`none` = file does not exist). -/
structure Disk where
  sales_model_pkl : Option FittedLinReg
  scaler_pkl : Option FittedScaler
deriving DecidableEq, Repr

/-- An empty working directory: no artifact has ever been persisted. -/
def Disk.empty : Disk := ⟨none, none⟩

/-- One training record from the `/train` body: `{'Date': str, 'Amount': number}`. -/
structure SalesRecord where
  date : String
  amount : ℚ
deriving DecidableEq, Repr

/-- `SalesForecastModel.load_model`:
```
if os.path.exists('sales_model.pkl'):
    self.model = joblib.load('sales_model.pkl')
    self.scaler = joblib.load('scaler.pkl')
    self.is_trained = True
```
The guard checks only the regressor file.  If it is absent the method is a
silent no-op.  If it is present but `'scaler.pkl'` is not, the second
`joblib.load` raises `FileNotFoundError` — after `self.model` has already
been reassigned, so the partially mutated object is returned with the error. -/
def SalesForecastModel.load_model (m : SalesForecastModel) (disk : Disk) :
    SalesForecastModel × Option MLError :=
  match disk.sales_model_pkl with
  | none => (m, none)
  | some lr =>
    match disk.scaler_pkl with
    | none => ({ m with model := some lr }, some (MLError.fileNotFound "scaler.pkl"))
    | some sc => (⟨some lr, some sc, true⟩, none)

/-- `SalesForecastModel.train(sales_data)`:
```
df = pd.DataFrame(sales_data); df['Date'] = pd.to_datetime(df['Date'])
X = self.prepare_features(df); y = df['Amount']
X_scaled = self.scaler.fit_transform(X); self.model.fit(X_scaled, y)
self.is_trained = True
joblib.dump(self.model, 'sales_model.pkl'); joblib.dump(self.scaler, 'scaler.pkl')
```
`pd.DataFrame([])` has no `'Date'` column, so empty input raises `KeyError`;
a malformed date raises inside `pd.to_datetime`.  Both failures occur before
any mutation of the object or the disk, so on error both are returned
unchanged.  After parsing succeeds no step can raise. -/
def SalesForecastModel.train (m : SalesForecastModel) (disk : Disk)
    (sales_data : List SalesRecord) :
    Except MLError (SalesForecastModel × Disk) :=
  if sales_data.isEmpty then Except.error (MLError.keyError "Date")
  else
    match parseDates (sales_data.map (fun r => r.date)) with
    | Except.error e => Except.error e
    | Except.ok ds =>
      match prepare_features ⟨[("Date", Col.dateCol ds),
                               ("Amount", Col.ratCol (sales_data.map (fun r => r.amount)))]⟩ with
      | none => Except.error (MLError.keyError "Date")
      | some (df2, X) =>
        match df2.getCol "Amount" with
        | some (Col.ratCol y) =>
          let sc := fitScaler X
          let Xs := X.map (transformRow sc)
          let lr := fitLinReg Xs y
          Except.ok ({ m with model := some lr, scaler := some sc, is_trained := true },
                     { disk with sales_model_pkl := some lr, scaler_pkl := some sc })
        | _ => Except.error (MLError.keyError "Amount")

/-- `SalesForecastModel.predict(future_dates)`:
```
if not self.is_trained: self.load_model()
df = pd.DataFrame({'Date': pd.to_datetime(future_dates)})
X = self.prepare_features(df)
X_scaled = self.scaler.transform(X)
predictions = self.model.predict(X_scaled)
return predictions.tolist()
```
A `load_model` failure, a malformed date, or an unfitted scaler/regressor
(`NotFittedError`, raised by `check_is_fitted` even on empty input) each
raise; the (possibly load-mutated) object is returned with the outcome.
The method is embedded in two parts: `predictCore` is everything after the
initial readiness check (parse, feature derivation, scaling, inference on
the object `m2` as it stands after that check), and `predict` below is the
method itself: the `is_trained` test with the `load_model` attempt,
followed by `predictCore`. -/
def SalesForecastModel.predictCore (m2 : SalesForecastModel)
    (future_dates : List String) :
    SalesForecastModel × Except MLError (List ℚ) :=
  match parseDates future_dates with
  | Except.error e => (m2, Except.error e)
  | Except.ok ds =>
    match prepare_features ⟨[("Date", Col.dateCol ds)]⟩ with
    | none => (m2, Except.error (MLError.keyError "Date"))
    | some (_, X) =>
      match m2.scaler with
      | none => (m2, Except.error MLError.notFitted)
      | some sc =>
        let Xs := X.map (transformRow sc)
        match m2.model with
        | none => (m2, Except.error MLError.notFitted)
        | some lr => (m2, Except.ok (Xs.map (predictRow lr)))

def SalesForecastModel.predict (m : SalesForecastModel) (disk : Disk)
    (future_dates : List String) :
    SalesForecastModel × Except MLError (List ℚ) :=
  match (if m.is_trained then (m, none) else m.load_model disk) with
  | (m2, some e) => (m2, Except.error e)
  | (m2, none) => m2.predictCore future_dates

/-- The whole mutable state a request can touch: the global `forecast_model`
singleton and the two artifact files. -/
structure ServerState where
  forecast_model : SalesForecastModel
  disk : Disk
deriving DecidableEq, Repr

/-- Process start: `forecast_model = SalesForecastModel()` over whatever the
working directory already holds. -/
def ServerState.boot (disk : Disk) : ServerState :=
  ⟨SalesForecastModel.init, disk⟩

/-- One item of the `/predict` success payload. -/
structure PredItem where
  date : String
  predicted_amount : ℚ
  confidence_interval : ℚ
deriving DecidableEq, Repr

/-- `POST /train` handler `train_model`: delegate to `forecast_model.train`;
on success answer `{'message': 'Model trained successfully'}`, on any
exception answer `{'error': str(e)}` with status 500, leaving the previous
in-memory model and files untouched. -/
def train_model (st : ServerState) (sales_data : List SalesRecord) :
    ServerState × Except MLError String :=
  match st.forecast_model.train st.disk sales_data with
  | Except.ok (m, d) => (⟨m, d⟩, Except.ok "Model trained successfully")
  | Except.error e => (st, Except.error e)

/-- `POST /predict` handler `predict_sales`: delegate to
`forecast_model.predict`, then zip the raw date strings with the predictions
into `{'date', 'predicted_amount', 'confidence_interval'}` items, with
`confidence_interval = pred * 0.15`; any exception becomes `{'error': str(e)}`
with status 500 (the load-mutated model object persists either way). -/
def predict_sales (st : ServerState) (future_dates : List String) :
    ServerState × Except MLError (List PredItem) :=
  match st.forecast_model.predict st.disk future_dates with
  | (m, Except.ok preds) =>
    (⟨m, st.disk⟩, Except.ok ((future_dates.zip preds).map
      (fun p => ⟨p.1, p.2, p.2 * 0.15⟩)))
  | (m, Except.error e) => (⟨m, st.disk⟩, Except.error e)

/-- The `customer_data` object of a `/customer-value` request: both fields
are read with `.get(key, 0)`, so each may be absent. -/
structure CustomerData where
  average_order_value : Option ℚ
  order_frequency : Option ℚ
deriving DecidableEq, Repr

/-- The `/customer-value` success payload. -/
structure CustomerValueResp where
  predicted_lifetime_value : ℚ
  confidence : ℚ
deriving DecidableEq, Repr

/-- `POST /customer-value` handler `predict_customer_value`:
```
avg_order = customer_data.get('average_order_value', 0)
frequency = customer_data.get('order_frequency', 0)
predicted_clv = avg_order * frequency * 24
return jsonify({'predicted_lifetime_value': float(predicted_clv), 'confidence': 0.8})
```
It touches no model state and no file. -/
def predict_customer_value (customer_data : CustomerData) : CustomerValueResp :=
  let avg_order := customer_data.average_order_value.getD 0
  let frequency := customer_data.order_frequency.getD 0
  let predicted_clv := avg_order * frequency * 24
  ⟨predicted_clv, 0.8⟩

/-- `GET /health` handler `health_check`: constant payload, no state touched. -/
def health_check : String := "healthy"

/-- The per-date feature rows the model derives from a parsed date list. -/
def featRows (ds : List Date) : List Feat := ds.map featuresOf

/-! Concrete sample fixtures used to instantiate the verified properties:
training on two records (2024-01-01 ↦ 100, 2024-01-02 ↦ 200) and the model
and artifacts that run produces. -/

/-- Sample training body: two valid records on consecutive days. -/
def recordsW : List SalesRecord := [⟨"2024-01-01", 100⟩, ⟨"2024-01-02", 200⟩]

/-- The regressor fitted from `recordsW` (the centered Gram matrix of two
rows is rank-deficient, so the coefficients are the fallback zero vector and
the intercept is the mean amount 150). -/
def lrW : FittedLinReg := ⟨⟨0, 0, 0⟩, 150⟩

/-- The scaler fitted from `recordsW`. -/
def scW : FittedScaler := ⟨⟨3/2, 1, 1/2⟩, ⟨1/2, 1, 1/2⟩⟩

/-- The in-memory model after training on `recordsW`. -/
def mW : SalesForecastModel := ⟨some lrW, some scW, true⟩

/-- The working directory after training on `recordsW`. -/
def dW : Disk := ⟨some lrW, some scW⟩

/-- A server whose model has been trained on `recordsW`. -/
def stW : ServerState := ⟨mW, dW⟩

/-- The `/predict` response item for `"2024-01-01"` on `stW`. -/
def itemW : PredItem := ⟨"2024-01-01", 150, 45/2⟩

/-- Sample frame holding the single date 2024-01-01, as `predict` builds it. -/
def frameW : Frame := ⟨[("Date", Col.dateCol [⟨2024, 1, 1⟩])]⟩

/-- Sample frame with a `Date` and an `Amount` column, as `train` builds it. -/
def frameW2 : Frame := ⟨[("Date", Col.dateCol [⟨2024, 1, 1⟩]), ("Amount", Col.ratCol [100])]⟩

/-!  Helper lemmas (shared across the claim theorems below). -/

theorem parseDates_ok_length (l : List String) (ds : List Date)
    (h : parseDates l = Except.ok ds) : ds.length = l.length := by
  induction l generalizing ds with
  | nil =>
    unfold parseDates at h
    cases h
    rfl
  | cons s rest ih =>
    unfold parseDates at h
    cases hp : parseDate s with
    | none => rw [hp] at h; cases h
    | some d =>
      rw [hp] at h
      cases hr : parseDates rest with
      | error e => rw [hr] at h; cases h
      | ok ds2 =>
        rw [hr] at h
        simp only [Except.map] at h
        cases h
        simp [ih ds2 hr]

theorem parseDates_ok_of_mem (l : List String) (ds : List Date)
    (h : parseDates l = Except.ok ds) (s : String) (hs : s ∈ l) :
    ∃ d, parseDate s = some d := by
  induction l generalizing ds with
  | nil => cases hs
  | cons t rest ih =>
    unfold parseDates at h
    cases hp : parseDate t with
    | none => rw [hp] at h; cases h
    | some d =>
      rw [hp] at h
      cases hr : parseDates rest with
      | error e => rw [hr] at h; cases h
      | ok ds2 =>
        cases hs with
        | head => exact ⟨d, hp⟩
        | tail _ hmem => exact ih ds2 hr hmem

theorem parseDates_error_of_bad (l : List String) (s : String)
    (hs : s ∈ l) (hbad : parseDate s = none) :
    ∃ t, parseDates l = Except.error (MLError.parseError t) := by
  induction l with
  | nil => cases hs
  | cons t rest ih =>
    unfold parseDates
    cases hp : parseDate t with
    | none => exact ⟨t, rfl⟩
    | some d =>
      cases hs with
      | head => rw [hp] at hbad; cases hbad
      | tail _ hmem =>
        obtain ⟨u, hu⟩ := ih hmem
        rw [hu]
        exact ⟨u, rfl⟩

theorem parseDates_singleton (s : String) (d : Date) (h : parseDate s = some d) :
    parseDates [s] = Except.ok [d] := by
  unfold parseDates
  rw [h]
  rfl

theorem train_ok_eq (m : SalesForecastModel) (disk : Disk) (records : List SalesRecord)
    (hne : records ≠ []) (ds : List Date)
    (hparse : parseDates (records.map (fun r => r.date)) = Except.ok ds) :
    m.train disk records =
      Except.ok
        (⟨some (fitLinReg ((featRows ds).map (transformRow (fitScaler (featRows ds))))
                 (records.map (fun r => r.amount))),
          some (fitScaler (featRows ds)), true⟩,
         ⟨some (fitLinReg ((featRows ds).map (transformRow (fitScaler (featRows ds))))
                 (records.map (fun r => r.amount))),
          some (fitScaler (featRows ds))⟩) := by
  obtain ⟨r, rest, rfl⟩ := List.exists_cons_of_ne_nil hne
  unfold SalesForecastModel.train
  rw [hparse]
  rfl

theorem train_ok_shape (m : SalesForecastModel) (disk : Disk) (records : List SalesRecord)
    (m1 : SalesForecastModel) (d1 : Disk)
    (h : m.train disk records = Except.ok (m1, d1)) :
    ∃ lr sc, m1 = ⟨some lr, some sc, true⟩ ∧ d1 = ⟨some lr, some sc⟩ := by
  unfold SalesForecastModel.train at h
  split at h
  · cases h
  · split at h
    · cases h
    · split at h
      · cases h
      · split at h
        · cases h
          exact ⟨_, _, rfl, rfl⟩
        · cases h

theorem predictCore_ok_eq (lr : FittedLinReg) (sc : FittedScaler)
    (dates : List String) (ds : List Date) (hparse : parseDates dates = Except.ok ds) :
    (SalesForecastModel.mk (some lr) (some sc) true).predictCore dates =
      (⟨some lr, some sc, true⟩,
       Except.ok (((featRows ds).map (transformRow sc)).map (predictRow lr))) := by
  unfold SalesForecastModel.predictCore
  rw [hparse]
  rfl

theorem predict_trained_eq (lr : FittedLinReg) (sc : FittedScaler) (disk : Disk)
    (dates : List String) :
    (SalesForecastModel.mk (some lr) (some sc) true).predict disk dates =
      (SalesForecastModel.mk (some lr) (some sc) true).predictCore dates := rfl

theorem predictCore_ok_inv (m2 : SalesForecastModel) (dates : List String)
    (m3 : SalesForecastModel) (preds : List ℚ)
    (h : m2.predictCore dates = (m3, Except.ok preds)) :
    ∃ ds sc lr, parseDates dates = Except.ok ds ∧ m2.scaler = some sc ∧
      m2.model = some lr ∧ m3 = m2 ∧
      preds = ((featRows ds).map (transformRow sc)).map (predictRow lr) := by
  unfold SalesForecastModel.predictCore at h
  split at h
  · cases h
  next ds hp =>
    split at h
    · cases h
    next df X hpf =>
      split at h
      · cases h
      next sc hsc =>
        split at h
        · cases h
        next lr hlr =>
          cases h
          have hX : X = featRows ds := by
            unfold prepare_features at hpf
            simp only [Frame.getCol, List.find?] at hpf
            cases hpf
            rfl
          exact ⟨ds, sc, lr, hp, hsc, hlr, rfl, by rw [hX]⟩

theorem predict_fst_of_trained (m : SalesForecastModel) (disk : Disk) (dates : List String)
    (h : m.is_trained = true) : (m.predict disk dates).1 = m := by
  unfold SalesForecastModel.predict
  rw [h]
  show (m.predictCore dates).1 = m
  unfold SalesForecastModel.predictCore
  cases hp : parseDates dates with
  | error e => rfl
  | ok ds =>
    cases hsc : m.scaler with
    | none => rfl
    | some sc =>
      cases hm : m.model with
      | none => rfl
      | some lr => rfl

theorem load_model_keeps_trained (m : SalesForecastModel) (disk : Disk)
    (h : m.is_trained = true) : ((m.load_model disk).1).is_trained = true := by
  unfold SalesForecastModel.load_model
  cases disk.sales_model_pkl with
  | none => exact h
  | some lr =>
    cases disk.scaler_pkl with
    | none => exact h
    | some sc => rfl


/-- C1: for every prediction result returned by the `/predict` endpoint, the
reported `confidence_interval` equals exactly `0.15` times the
`predicted_amount` of that same result. -/
theorem predict_confidence_interval_law (st : ServerState) (dates : List String)
    (rs : List PredItem) (h : (predict_sales st dates).2 = Except.ok rs)
    (r : PredItem) (hr : r ∈ rs) :
    r.confidence_interval = 0.15 * r.predicted_amount := by
  unfold predict_sales at h
  split at h
  next m preds heq =>
    simp only at h
    cases h
    obtain ⟨⟨dt, p⟩, hmem, rfl⟩ := List.mem_map.mp hr
    show p * 0.15 = 0.15 * p
    ring
  next m e heq => cases h

set_option maxRecDepth 8000 in
/-- Witness for C1: the law instantiated on a concretely trained server and
the single request date 2024-01-01. -/
theorem predict_confidence_interval_law_witness :
    (predict_sales stW ["2024-01-01"]).2 = Except.ok [itemW] ∧
    itemW.confidence_interval = 0.15 * itemW.predicted_amount := by
  have h : (predict_sales stW ["2024-01-01"]).2 = Except.ok [itemW] :=
    of_decide_eq_true (by with_unfolding_all rfl)
  exact ⟨h, predict_confidence_interval_law stW ["2024-01-01"] [itemW] h itemW
    (List.mem_singleton.mpr rfl)⟩


/-- C2: for every customer-value request, `predicted_lifetime_value` equals
`average_order_value * order_frequency * 24`, `confidence` is the constant
`0.8` independent of input, a missing field is treated as `0`, and in
particular `average_order_value = 50` with `order_frequency = 3` yields
`predicted_lifetime_value = 3600`. -/
theorem customer_value_law (d : CustomerData) :
    (predict_customer_value d).predicted_lifetime_value
        = d.average_order_value.getD 0 * d.order_frequency.getD 0 * 24
    ∧ (predict_customer_value d).confidence = 0.8
    ∧ (∀ f, predict_customer_value ⟨none, f⟩ = predict_customer_value ⟨some 0, f⟩)
    ∧ (∀ a, predict_customer_value ⟨a, none⟩ = predict_customer_value ⟨a, some 0⟩)
    ∧ predict_customer_value ⟨some 50, some 3⟩ = ⟨3600, 0.8⟩ := by
  refine ⟨rfl, rfl, fun f => rfl, fun a => rfl, ?_⟩
  show CustomerValueResp.mk (50 * 3 * 24) 0.8 = ⟨3600, 0.8⟩
  norm_num

theorem predict_sales_snd (st : ServerState) (dates : List String) :
    (predict_sales st dates).2 = (st.forecast_model.predict st.disk dates).2.map
      (fun preds => (dates.zip preds).map (fun p => ⟨p.1, p.2, p.2 * 0.15⟩)) := by
  unfold predict_sales
  cases h : st.forecast_model.predict st.disk dates with
  | mk mz r => cases r <;> rfl

theorem predictCore_scaler_none_not_ok (m2 : SalesForecastModel) (dates : List String)
    (h : m2.scaler = none) (m3 : SalesForecastModel) (preds : List ℚ) :
    m2.predictCore dates ≠ (m3, Except.ok preds) := by
  intro hc
  obtain ⟨ds, sc, lr, hp, hsc, _, _, _⟩ := predictCore_ok_inv m2 dates m3 preds hc
  rw [h] at hsc
  cases hsc

/-- C3: whenever `/predict` succeeds, it returns exactly one result per input
date and in input order: the i-th result carries the i-th input date. -/
theorem predict_order_preserving (st : ServerState) (dates : List String)
    (rs : List PredItem) (h : (predict_sales st dates).2 = Except.ok rs) :
    rs.length = dates.length ∧
    ∀ i (hi : i < rs.length) (hd : i < dates.length), (rs[i]).date = dates[i] := by
  unfold predict_sales at h
  split at h
  next m preds heq =>
    simp only at h
    cases h
    have hlen : preds.length = dates.length := by
      unfold SalesForecastModel.predict at heq
      split at heq
      next mz e hload => simp at heq
      next mz hload =>
        obtain ⟨ds, sc, lr, hp, _, _, _, hpreds⟩ := predictCore_ok_inv mz dates m preds heq
        rw [hpreds]
        simp [featRows, parseDates_ok_length dates ds hp]
    constructor
    · simp [List.length_zip, hlen]
    · intro i hi hd
      simp [List.getElem_map, List.getElem_zip]
  next m e heq => cases h

set_option maxRecDepth 8000 in
/-- Witness for C3: three dates in, three results out, dates in order. -/
theorem predict_order_preserving_witness :
    (predict_sales stW ["2024-01-01", "2024-06-15", "2024-12-31"]).2
      = Except.ok [⟨"2024-01-01", 150, 45/2⟩, ⟨"2024-06-15", 150, 45/2⟩,
                   ⟨"2024-12-31", 150, 45/2⟩] ∧
    ([⟨"2024-01-01", 150, 45/2⟩, ⟨"2024-06-15", 150, 45/2⟩,
      ⟨"2024-12-31", 150, 45/2⟩] : List PredItem).length
        = (["2024-01-01", "2024-06-15", "2024-12-31"] : List String).length := by
  have h : (predict_sales stW ["2024-01-01", "2024-06-15", "2024-12-31"]).2
      = Except.ok [⟨"2024-01-01", 150, 45/2⟩, ⟨"2024-06-15", 150, 45/2⟩,
                   ⟨"2024-12-31", 150, 45/2⟩] :=
    of_decide_eq_true (by with_unfolding_all rfl)
  exact ⟨h, (predict_order_preserving stW _ _ h).1⟩


/-- C4: if `predict` runs while the model is untrained it first attempts the
`load_model` transition (third conjunct: with both artifacts on disk the
attempt does yield a trained model); on a fresh process with no persisted
artifacts every `/predict` is an error response — `NotFittedError` when the
dates parse (first conjunct) and never a successful prediction in any case
(second conjunct). -/
theorem predict_untrained_no_artifacts_fails (dates : List String) (ds : List Date)
    (hparse : parseDates dates = Except.ok ds) :
    (predict_sales (ServerState.boot Disk.empty) dates).2 = Except.error MLError.notFitted
    ∧ (∀ dates2 rs, (predict_sales (ServerState.boot Disk.empty) dates2).2 ≠ Except.ok rs)
    ∧ (∀ lr sc, SalesForecastModel.init.load_model ⟨some lr, some sc⟩
        = (⟨some lr, some sc, true⟩, none)) := by
  refine ⟨?_, ?_, fun lr sc => rfl⟩
  · have hp : (ServerState.boot Disk.empty).forecast_model.predict
        (ServerState.boot Disk.empty).disk dates
        = (SalesForecastModel.init, Except.error MLError.notFitted) := by
      show SalesForecastModel.init.predictCore dates = _
      unfold SalesForecastModel.predictCore
      rw [hparse]
      rfl
    unfold predict_sales
    rw [hp]
  · intro dates2 rs hok
    rw [predict_sales_snd] at hok
    change (SalesForecastModel.init.predictCore dates2).2.map _ = _ at hok
    cases hc : SalesForecastModel.init.predictCore dates2 with
    | mk mz r =>
      rw [hc] at hok
      cases r with
      | error e => simp [Except.map] at hok
      | ok preds => exact predictCore_scaler_none_not_ok SalesForecastModel.init dates2 rfl mz preds hc

/-- Witness for C4: instantiated at the single date 2024-01-01. -/
theorem predict_untrained_no_artifacts_fails_witness :
    parseDates ["2024-01-01"] = Except.ok [⟨2024, 1, 1⟩] ∧
    (predict_sales (ServerState.boot Disk.empty) ["2024-01-01"]).2
      = Except.error MLError.notFitted := by
  have hp : parseDates ["2024-01-01"] = Except.ok [⟨2024, 1, 1⟩] := by decide
  exact ⟨hp, (predict_untrained_no_artifacts_fails ["2024-01-01"] [⟨2024, 1, 1⟩] hp).1⟩

set_option maxHeartbeats 1600000 in
/-- C5: training on any non-empty batch of valid records (all dates parse)
with at least two distinct feature rows, then predicting on a date present
in the training data, raises no exception and returns a (finite, here
rational) predicted value. -/
theorem train_then_predict_returns_value (m : SalesForecastModel) (disk : Disk)
    (records : List SalesRecord) (hne : records ≠ [])
    (ds : List Date) (hparse : parseDates (records.map (fun r => r.date)) = Except.ok ds)
    (hdistinct : 2 ≤ ((featRows ds).dedup).length)
    (d : String) (hd : d ∈ records.map (fun r => r.date)) :
    ∃ m1 disk1 m2 p, m.train disk records = Except.ok (m1, disk1) ∧
      m1.predict disk1 [d] = (m2, Except.ok [p]) := by
  obtain ⟨dd, hdd⟩ := parseDates_ok_of_mem _ _ hparse d hd
  have hsingle := parseDates_singleton d dd hdd
  exact ⟨_, _, _, _, train_ok_eq m disk records hne ds hparse,
    predictCore_ok_eq _ _ [d] [dd] hsingle⟩

/-- Witness for C5: two valid records with distinct feature rows, then a
prediction on the first training date. -/
theorem train_then_predict_returns_value_witness :
    recordsW ≠ [] ∧
    parseDates (recordsW.map (fun r => r.date)) = Except.ok [⟨2024, 1, 1⟩, ⟨2024, 1, 2⟩] ∧
    2 ≤ ((featRows [⟨2024, 1, 1⟩, ⟨2024, 1, 2⟩]).dedup).length ∧
    "2024-01-01" ∈ recordsW.map (fun r => r.date) ∧
    ∃ m1 disk1 m2 p, SalesForecastModel.init.train Disk.empty recordsW
        = Except.ok (m1, disk1) ∧
      m1.predict disk1 ["2024-01-01"] = (m2, Except.ok [p]) := by
  refine ⟨by decide, by decide, ?_, by decide, ?_⟩
  · show 2 ≤ (([⟨2024, 1, 1⟩, ⟨2024, 1, 2⟩] : List Date).map featuresOf).dedup.length
    norm_num [featuresOf, dayOfYear, dayOfWeek, daysBeforeYear, daysInMonth, isLeapYear,
      List.dedup_cons_of_not_mem, List.dedup_cons_of_mem]
  · exact train_then_predict_returns_value SalesForecastModel.init Disk.empty recordsW
      (by decide) [⟨2024, 1, 1⟩, ⟨2024, 1, 2⟩] (by decide)
      (by show 2 ≤ (([⟨2024, 1, 1⟩, ⟨2024, 1, 2⟩] : List Date).map featuresOf).dedup.length
          norm_num [featuresOf, dayOfYear, dayOfWeek, daysBeforeYear, daysInMonth,
            isLeapYear, List.dedup_cons_of_not_mem, List.dedup_cons_of_mem])
      "2024-01-01" (by decide)


/-- C6: a `/train` call failing on a malformed date string yields an error
response rather than a crash, leaves the server state (previously trained
in-memory model and files) untouched, and subsequent `/predict` calls
behave exactly as before the failed call. -/
theorem train_malformed_date_preserves_model (st : ServerState)
    (records : List SalesRecord) (r : SalesRecord) (hr : r ∈ records)
    (hbad : parseDate r.date = none) :
    (train_model st records).1 = st ∧
    (∃ e, (train_model st records).2 = Except.error e) ∧
    (∀ dates, predict_sales (train_model st records).1 dates = predict_sales st dates) := by
  have hmem : r.date ∈ records.map (fun x => x.date) := List.mem_map_of_mem _ hr
  obtain ⟨t, ht⟩ := parseDates_error_of_bad _ _ hmem hbad
  have htr : st.forecast_model.train st.disk records
      = Except.error (MLError.parseError t) := by
    cases records with
    | nil => cases hr
    | cons a l =>
      unfold SalesForecastModel.train
      rw [ht]
      rfl
  have hmodel : train_model st records = (st, Except.error (MLError.parseError t)) := by
    unfold train_model
    rw [htr]
  refine ⟨by rw [hmodel], ⟨MLError.parseError t, by rw [hmodel]⟩, fun dates => by rw [hmodel]⟩

/-- Witness for C6: a malformed record against the concretely trained
server `stW`. -/
theorem train_malformed_date_preserves_model_witness :
    (⟨"not-a-date", 5⟩ : SalesRecord) ∈ [(⟨"not-a-date", 5⟩ : SalesRecord)] ∧
    parseDate "not-a-date" = none ∧
    ((train_model stW [⟨"not-a-date", 5⟩]).1 = stW ∧
     (∃ e, (train_model stW [⟨"not-a-date", 5⟩]).2 = Except.error e) ∧
     (∀ dates, predict_sales (train_model stW [⟨"not-a-date", 5⟩]).1 dates
        = predict_sales stW dates)) := by
  refine ⟨List.mem_singleton.mpr rfl, by decide, ?_⟩
  exact train_malformed_date_preserves_model stW [⟨"not-a-date", 5⟩] ⟨"not-a-date", 5⟩
    (List.mem_singleton.mpr rfl) (by decide)

theorem find_set_self (l : List (String × Col)) (n : String) (c : Col)
    (hany : l.any (fun p => p.1 == n) = true) :
    (l.map (fun p => if p.1 == n then (n, c) else p)).find? (fun p => p.1 == n)
      = some (n, c) := by
  induction l with
  | nil => cases hany
  | cons p t ih =>
    rw [List.any_cons] at hany
    cases hpb : (p.1 == n) with
    | true =>
      simp only [List.map_cons, hpb, if_true]
      exact List.find?_cons_of_pos _ (by simp)
    | false =>
      simp only [List.map_cons, hpb, Bool.false_eq_true, if_false]
      rw [List.find?_cons_of_neg _ (by simp [hpb])]
      rw [hpb] at hany
      simp only [Bool.false_or] at hany
      exact ih hany

theorem find_append_self (l : List (String × Col)) (n : String) (c : Col)
    (hany : l.any (fun p => p.1 == n) = false) :
    (l ++ [(n, c)]).find? (fun p => p.1 == n) = some (n, c) := by
  induction l with
  | nil => exact List.find?_cons_of_pos _ (by simp)
  | cons p t ih =>
    rw [List.any_cons] at hany
    cases hpb : (p.1 == n) with
    | true => rw [hpb] at hany; cases hany
    | false =>
      rw [List.cons_append, List.find?_cons_of_neg _ (by simp [hpb])]
      rw [hpb] at hany
      simp only [Bool.false_or] at hany
      exact ih hany

theorem find_set_other (l : List (String × Col)) (n n2 : String) (c : Col)
    (hne : (n == n2) = false) :
    (l.map (fun p => if p.1 == n then (n, c) else p)).find? (fun p => p.1 == n2)
      = l.find? (fun p => p.1 == n2) := by
  induction l with
  | nil => rfl
  | cons p t ih =>
    cases hpb : (p.1 == n) with
    | true =>
      have hp1 : p.1 = n := eq_of_beq hpb
      simp only [List.map_cons, hpb, if_true]
      rw [List.find?_cons_of_neg _ (by simp [hne]),
          List.find?_cons_of_neg _ (by simp [hp1, hne])]
      exact ih
    | false =>
      simp only [List.map_cons, hpb, Bool.false_eq_true, if_false]
      cases hp2 : (p.1 == n2) with
      | true =>
        rw [List.find?_cons_of_pos _ (by simp [hp2]),
            List.find?_cons_of_pos _ (by simp [hp2])]
      | false =>
        rw [List.find?_cons_of_neg _ (by simp [hp2]),
            List.find?_cons_of_neg _ (by simp [hp2])]
        exact ih

theorem find_append_other (l : List (String × Col)) (n n2 : String) (c : Col)
    (hne : (n == n2) = false) :
    (l ++ [(n, c)]).find? (fun p => p.1 == n2) = l.find? (fun p => p.1 == n2) := by
  induction l with
  | nil =>
    show List.find? _ [(n, c)] = none
    rw [List.find?_cons_of_neg _ (by simp [hne])]
    rfl
  | cons p t ih =>
    cases hp2 : (p.1 == n2) with
    | true =>
      rw [List.cons_append, List.find?_cons_of_pos _ (by simp [hp2]),
          List.find?_cons_of_pos _ (by simp [hp2])]
    | false =>
      rw [List.cons_append, List.find?_cons_of_neg _ (by simp [hp2]),
          List.find?_cons_of_neg _ (by simp [hp2])]
      exact ih

theorem getCol_setCol_self (f : Frame) (n : String) (c : Col) :
    (f.setCol n c).getCol n = some c := by
  unfold Frame.setCol Frame.getCol
  cases hany : f.cols.any (fun p => p.1 == n) with
  | true =>
    simp only [hany, if_true]
    rw [find_set_self f.cols n c hany]
    rfl
  | false =>
    simp only [hany, Bool.false_eq_true, if_false]
    rw [find_append_self f.cols n c hany]
    rfl

theorem getCol_setCol_other (f : Frame) (n n2 : String) (c : Col)
    (hne : (n == n2) = false) :
    (f.setCol n c).getCol n2 = f.getCol n2 := by
  unfold Frame.setCol Frame.getCol
  cases hany : f.cols.any (fun p => p.1 == n) with
  | true =>
    simp only [hany, if_true]
    rw [find_set_other f.cols n n2 c hne]
  | false =>
    simp only [hany, Bool.false_eq_true, if_false]
    rw [find_append_other f.cols n n2 c hne]


/-- C7 counterexample: `prepare_features` is not free of side effects on its
input — on the concrete single-date frame `frameW` the frame after the call
(Python's in-place column assignments, modelled as the returned first
component) differs from the input frame: three feature columns were added. -/
theorem prepare_features_mutates_input :
    (prepare_features frameW).map Prod.fst ≠ some frameW := by decide

/-- C7 (amended): given a frame with a datetime `Date` column,
`prepare_features` produces the 3-tuple `(day_of_year, month, day_of_week)`
for each date, and its only side effect on the frame is adding/overwriting
the three derived feature columns: the `Date` and `Amount` columns are left
unchanged (it is not pure — the input frame is mutated by those three
column assignments). -/
theorem prepare_features_feature_columns (f : Frame) (ds : List Date)
    (h : f.getCol "Date" = some (Col.dateCol ds)) :
    ∃ f2, prepare_features f = some (f2, ds.map featuresOf) ∧
      f2.getCol "Date" = f.getCol "Date" ∧
      f2.getCol "Amount" = f.getCol "Amount" ∧
      f2.getCol "day_of_year" = some (Col.ratCol (ds.map (fun d => (dayOfYear d : ℚ)))) ∧
      f2.getCol "month" = some (Col.ratCol (ds.map (fun d => (d.month : ℚ)))) ∧
      f2.getCol "day_of_week" = some (Col.ratCol (ds.map (fun d => (dayOfWeek d : ℚ)))) := by
  unfold prepare_features
  rw [h]
  refine ⟨_, rfl, ?_, ?_, ?_, ?_, ?_⟩
  · rw [getCol_setCol_other _ _ _ _ (by decide), getCol_setCol_other _ _ _ _ (by decide),
        getCol_setCol_other _ _ _ _ (by decide)]
    exact h
  · rw [getCol_setCol_other _ _ _ _ (by decide), getCol_setCol_other _ _ _ _ (by decide),
        getCol_setCol_other _ _ _ _ (by decide)]
  · rw [getCol_setCol_other _ _ _ _ (by decide), getCol_setCol_other _ _ _ _ (by decide),
        getCol_setCol_self]
  · rw [getCol_setCol_other _ _ _ _ (by decide), getCol_setCol_self]
  · rw [getCol_setCol_self]

/-- Witness for C7's amended statement: instantiated on the two-column frame
`frameW2` (a `Date` and an `Amount` column). -/
theorem prepare_features_feature_columns_witness :
    frameW2.getCol "Date" = some (Col.dateCol [⟨2024, 1, 1⟩]) ∧
    ∃ f2, prepare_features frameW2
        = some (f2, ([⟨2024, 1, 1⟩] : List Date).map featuresOf) ∧
      f2.getCol "Date" = frameW2.getCol "Date" ∧
      f2.getCol "Amount" = frameW2.getCol "Amount" ∧
      f2.getCol "day_of_year"
        = some (Col.ratCol (([⟨2024, 1, 1⟩] : List Date).map (fun d => (dayOfYear d : ℚ)))) ∧
      f2.getCol "month"
        = some (Col.ratCol (([⟨2024, 1, 1⟩] : List Date).map (fun d => (d.month : ℚ)))) ∧
      f2.getCol "day_of_week"
        = some (Col.ratCol (([⟨2024, 1, 1⟩] : List Date).map (fun d => (dayOfWeek d : ℚ)))) :=
  ⟨rfl, prepare_features_feature_columns frameW2 [⟨2024, 1, 1⟩] rfl⟩

/-- C8: persistence round-trip — if a training run succeeded, then a fresh
process (untrained in-memory model) over the artifacts that run persisted
produces, for any input date, exactly the same prediction outcome as the
pre-restart model. -/
theorem persistence_round_trip (st : ServerState) (records : List SalesRecord)
    (m1 : SalesForecastModel) (d1 : Disk)
    (htrain : st.forecast_model.train st.disk records = Except.ok (m1, d1))
    (date : String) :
    ((ServerState.boot d1).forecast_model.predict (ServerState.boot d1).disk [date]).2
      = (m1.predict d1 [date]).2 := by
  obtain ⟨lr, sc, rfl, rfl⟩ := train_ok_shape _ _ _ _ _ htrain
  rfl

set_option maxRecDepth 8000 in
/-- Witness for C8: the round trip instantiated on the concrete training run
over `recordsW`, predicting 2024-01-01 (both sides evaluate to 150). -/
theorem persistence_round_trip_witness :
    SalesForecastModel.init.train Disk.empty recordsW = Except.ok (mW, dW) ∧
    ((ServerState.boot dW).forecast_model.predict (ServerState.boot dW).disk
        ["2024-01-01"]).2
      = (mW.predict dW ["2024-01-01"]).2 := by
  have h : SalesForecastModel.init.train Disk.empty recordsW = Except.ok (mW, dW) :=
    of_decide_eq_true (by with_unfolding_all rfl)
  exact ⟨h, persistence_round_trip (ServerState.boot Disk.empty) recordsW mW dW h
    "2024-01-01"⟩

/-- C9: the Trained state is absorbing — on a server whose model has
`is_trained = true`, no endpoint resets it: `/train` (success or failure)
and `/predict` leave `is_trained = true`, as does any `load_model` call
(`/customer-value` and `/health` take no model state at all, see
`predict_customer_value` and `health_check`). -/
theorem trained_state_absorbing (st : ServerState)
    (h : st.forecast_model.is_trained = true) :
    (∀ records, ((train_model st records).1).forecast_model.is_trained = true) ∧
    (∀ dates, ((predict_sales st dates).1).forecast_model.is_trained = true) ∧
    (∀ disk2, ((st.forecast_model.load_model disk2).1).is_trained = true) := by
  refine ⟨?_, ?_, fun disk2 => load_model_keeps_trained _ _ h⟩
  · intro records
    unfold train_model
    cases htr : st.forecast_model.train st.disk records with
    | error e => exact h
    | ok md =>
      obtain ⟨m1, d1⟩ := md
      obtain ⟨lr, sc, rfl, rfl⟩ := train_ok_shape _ _ _ _ _ htr
      rfl
  · intro dates
    unfold predict_sales
    cases hp : st.forecast_model.predict st.disk dates with
    | mk mz r =>
      have hfst : mz = st.forecast_model := by
        have h2 := predict_fst_of_trained st.forecast_model st.disk dates h
        rw [hp] at h2
        exact h2
      cases r with
      | ok preds => show mz.is_trained = true; rw [hfst]; exact h
      | error e => show mz.is_trained = true; rw [hfst]; exact h

/-- Witness for C9: instantiated on the concretely trained server `stW`. -/
theorem trained_state_absorbing_witness :
    stW.forecast_model.is_trained = true ∧
    ((∀ records, ((train_model stW records).1).forecast_model.is_trained = true) ∧
     (∀ dates, ((predict_sales stW dates).1).forecast_model.is_trained = true) ∧
     (∀ disk2, ((stW.forecast_model.load_model disk2).1).is_trained = true)) :=
  ⟨rfl, trained_state_absorbing stW rfl⟩

/-- C10: `load_model` guards only on the regressor artifact: with no
regressor file it is a silent no-op whatever the scaler file holds (in
particular when neither artifact exists), but with a regressor file present
and `scaler.pkl` absent it raises `FileNotFoundError` (after having already
reassigned the in-memory regressor) instead of being a no-op. -/
theorem load_model_guards_on_regressor_only (m : SalesForecastModel)
    (scOpt : Option FittedScaler) (lr : FittedLinReg) :
    m.load_model ⟨none, scOpt⟩ = (m, none) ∧
    m.load_model ⟨some lr, none⟩
      = ({ m with model := some lr }, some (MLError.fileNotFound "scaler.pkl")) :=
  ⟨rfl, rfl⟩

end TrendLens
